import Mathlib

/-!
Verification development for the Codex JSONL → HTML conversion pipeline
(`convertor_html_main.py` and `convertor_html_rendering.py`).

Text is modelled as `List Char` (one element per Unicode code point, matching
Python `str` indexing and `len`).  Python functions that can raise are
modelled with `Except Err`.  Regular-expression substitutions from the source
are implemented as direct scanning functions that realise the documented
semantics of the concrete patterns (leftmost, non-overlapping matches;
greedy/lazy behaviour is resolved per pattern as noted in the comments).
-/

set_option maxRecDepth 8000

/-- Text: a Python `str`, one entry per code point. -/
abbrev Str := List Char

/-- Error channel standing in for a raised Python exception (message only). -/
abbrev Err := Str

/-- Convert a Lean string literal to the `Str` text model. -/
def lit (s : String) : Str := s.data

/-- The character `{` (written numerically to keep it out of string literals). -/
def obraceC : Char := Char.ofNat 123

/-- The character `}` (written numerically to keep it out of string literals). -/
def cbraceC : Char := Char.ofNat 125

/-- The backtick character (written numerically). -/
def bqC : Char := Char.ofNat 96

/-- Substring test: does `needle` occur contiguously in `hay`? -/
def containsSub (hay needle : Str) : Bool :=
  match hay with
  | [] => needle.isEmpty
  | _ :: t => needle.isPrefixOf hay || containsSub t needle

/-- Number of (possibly overlapping start positions of) occurrences of a
non-empty `needle` in `hay`; used only for concrete evaluations. -/
def countSub (hay needle : Str) : Nat :=
  match hay with
  | [] => 0
  | _ :: t => (if needle.isPrefixOf hay then 1 else 0) + countSub t needle

/-- Fuelled core of Python `str.replace`: replace every non-overlapping
occurrence of `pat` (non-empty) by `repl`, scanning left to right. -/
def replaceAllCore (fuel : Nat) (s pat repl : Str) : Str :=
  match fuel with
  | 0 => s
  | fuel + 1 =>
    match s with
    | [] => []
    | c :: t =>
      if pat.isPrefixOf s then repl ++ replaceAllCore fuel (s.drop pat.length) pat repl
      else c :: replaceAllCore fuel t pat repl

/-- Python `str.replace(pat, repl)` for a non-empty `pat`. -/
def replaceAll (s pat repl : Str) : Str := replaceAllCore s.length s pat repl

/-- Split on newline characters; `joinNl` is its inverse. -/
def splitOnNl : Str → List Str
  | [] => [[]]
  | c :: t =>
    if c = '\n' then [] :: splitOnNl t
    else
      match splitOnNl t with
      | [] => [[c]]
      | l :: ls => (c :: l) :: ls

/-- Join lines with newline characters. -/
def joinNl : List Str → Str
  | [] => []
  | [l] => l
  | l :: ls => l ++ '\n' :: joinNl ls

/-- Concatenate a list of texts (Python `"".join`). -/
def concatStr (parts : List Str) : Str := parts.foldr (· ++ ·) []

/-- Decimal digits of a natural number, little-endian, with fuel
(kept fuel-based so that concrete evaluation reduces in the kernel). -/
def natDigitsRev : Nat → Nat → List Char
  | 0, _ => []
  | fuel + 1, n =>
    if n < 10 then [Char.ofNat (48 + n)]
    else Char.ofNat (48 + n % 10) :: natDigitsRev fuel (n / 10)

/-- Decimal representation of a natural number. -/
def natDigits (n : Nat) : Str := (natDigitsRev (n + 1) n).reverse

/-- Decimal representation of an integer. -/
def intRepr (n : Int) : Str :=
  if n < 0 then '-' :: natDigits n.natAbs else natDigits n.natAbs

/-! ## JSON value model

`json.loads` produces nested dicts/lists/strings/numbers/bools/`None`.
Numbers are modelled as integers: floating-point literals are outside the
scope of this model (no claim depends on them).  Object fields are kept in
insertion order, mirroring CPython dict semantics. -/

inductive Json where
  | null : Json
  | bool (b : Bool) : Json
  | num (n : Int) : Json
  | str (s : Str) : Json
  | arr (items : List Json) : Json
  | obj (fields : List (Str × Json)) : Json
deriving Repr

mutual
/-- Structural equality of JSON values (used only in decidable statements). -/
def Json.beq : Json → Json → Bool
  | .null, .null => true
  | .bool a, .bool b => a == b
  | .num a, .num b => a == b
  | .str a, .str b => a == b
  | .arr a, .arr b => Json.beqList a b
  | .obj a, .obj b => Json.beqFields a b
  | _, _ => false

/-- Elementwise equality for JSON arrays. -/
def Json.beqList : List Json → List Json → Bool
  | [], [] => true
  | a :: as, b :: bs => Json.beq a b && Json.beqList as bs
  | _, _ => false

/-- Elementwise equality for JSON object field lists. -/
def Json.beqFields : List (Str × Json) → List (Str × Json) → Bool
  | [], [] => true
  | (ka, va) :: as, (kb, vb) :: bs => ka == kb && Json.beq va vb && Json.beqFields as bs
  | _, _ => false
end

instance : BEq Json := ⟨Json.beq⟩

/-- Is this JSON value a Python `str`? -/
def Json.isStr : Json → Bool
  | .str _ => true
  | _ => false

/-- Does this JSON value equal the given Python string (Python `==`)? -/
def jsonEqStr (j : Json) (s : Str) : Bool :=
  match j with
  | .str x => x == s
  | _ => false

/-- Dict lookup with CPython duplicate-key semantics: last binding wins. -/
def objLookup (fields : List (Str × Json)) (k : Str) : Option Json :=
  match fields with
  | [] => none
  | (k0, v0) :: rest =>
    match objLookup rest k with
    | some v => some v
    | none => if k0 == k then some v0 else none

/-- Python `d.get(k)` on a dict: `None` when absent (JSON null and Python
`None` coincide under `json.loads`). -/
def objGet (fields : List (Str × Json)) (k : Str) : Json :=
  (objLookup fields k).getD .null

/-- Python `d.get(k, default)` on a dict. -/
def objGetD (fields : List (Str × Json)) (k : Str) (d : Json) : Json :=
  (objLookup fields k).getD d

/-- Python truthiness of a JSON value. -/
def pyTruthy : Json → Bool
  | .null => false
  | .bool b => b
  | .num n => n != 0
  | .str s => !s.isEmpty
  | .arr l => !l.isEmpty
  | .obj f => !f.isEmpty

/-- Python `str.lower` restricted to ASCII letters (the routing-table keys
and roles in the logs are ASCII). -/
def pyLower (s : Str) : Str :=
  s.map fun c => if 'A' ≤ c ∧ c ≤ 'Z' then Char.ofNat (c.toNat + 32) else c

/-- Python `str.capitalize`: first character upper-cased, rest lower-cased. -/
def pyCapitalize (s : Str) : Str :=
  match s with
  | [] => []
  | c :: t =>
    (if 'a' ≤ c ∧ c ≤ 'z' then Char.ofNat (c.toNat - 32) else c) :: pyLower t

/-- A concrete stand-in for Python's opaque `hash` on strings; only its
determinism matters to the claims, which are also proved for an arbitrary
hash function where the contract mentions hashing. -/
def pyHash (s : Str) : Int :=
  s.foldl (fun a c => a * 131 + Int.ofNat c.toNat) 7

/-- Python `hash` applied to a JSON value: lists and dicts are unhashable. -/
def pyHashJson (hsh : Str → Int) : Json → Except Err Int
  | .null => .ok 0
  | .bool b => .ok (if b then 1 else 0)
  | .num n => .ok n
  | .str s => .ok (hsh s)
  | .arr _ => .error (lit "TypeError: unhashable type")
  | .obj _ => .error (lit "TypeError: unhashable type")

/-- Python `f"{v}"` conversion of a JSON value (listed cases suffice for the
payload shapes exercised here). -/
def pyStrJson : Json → Str
  | .null => lit "None"
  | .bool b => if b then lit "True" else lit "False"
  | .num n => intRepr n
  | .str s => s
  | .arr _ => lit "<list>"
  | .obj _ => lit "<dict>"

/-! ## Content Formatter (`convertor_html_rendering.py`)

Constants and the `format_content` pipeline.  The regular expressions of the
source are realised as scanning functions; each comment records the pattern
being implemented. -/

/-- `html.escape(c, quote=True)` on one character. -/
def escChar (c : Char) : Str :=
  if c = '&' then lit "&amp;"
  else if c = '<' then lit "&lt;"
  else if c = '>' then lit "&gt;"
  else if c = '"' then lit "&quot;"
  else if c = '\'' then lit "&#x27;"
  else [c]

/-- Python `html.escape(s, quote=True)` (the sequential `str.replace` chain of
the stdlib is equivalent to this per-character map, since `&` is replaced
first). -/
def htmlEscape (s : Str) : Str := s.foldr (fun c acc => escChar c ++ acc) []

/-- `TOOL_OUTPUT_TRUNCATE_LIMIT` from the source. -/
def TOOL_OUTPUT_TRUNCATE_LIMIT : Nat := 4000

/-- `TEXT_BLOCK_TYPES` from the source. -/
def TEXT_BLOCK_TYPES : List Str :=
  [lit "input_text", lit "output_text", lit "summary_text", lit "text"]

/-- `CONTEXT_PLACEHOLDER` from the source. -/
def CONTEXT_PLACEHOLDER : Str := lit "__CONTEXT_PROTECTED__"

/-- BUST IN SILHOUETTE. -/
def ICON_USER : Str := [Char.ofNat 0x1F464]

/-- BLACK QUESTION MARK ORNAMENT. -/
def ICON_QUESTION : Str := [Char.ofNat 0x2753]

/-- `ICON_USER_REQUEST` aliases the question-mark icon. -/
def ICON_USER_REQUEST : Str := ICON_QUESTION

/-- ROBOT FACE. -/
def ICON_ASSISTANT : Str := [Char.ofNat 0x1F916]

/-- BRAIN. -/
def ICON_REASONING : Str := [Char.ofNat 0x1F9E0]

/-- HAMMER AND WRENCH. -/
def ICON_TOOL : Str := [Char.ofNat 0x1F6E0]

/-- GEAR. -/
def ICON_GEAR : Str := [Char.ofNat 0x2699]

/-- Python `\s` on the ASCII range (the log text is ASCII whitespace only). -/
def isPyWs (c : Char) : Bool :=
  c = ' ' ∨ c = '\t' ∨ c = '\n' ∨ c = '\r' ∨ c = '\x0b' ∨ c = '\x0c'

/-- Match `#+\s*LIT` at the start of `s`, returning the suffix after `LIT`.
Maximal munch is exact here: `LIT` starts with a letter, which is neither
`#` nor whitespace, so greedy runs cannot steal from it. -/
def matchHashesWsLit (s l : Str) : Option Str :=
  match s with
  | '#' :: t =>
    let afterHash := t.dropWhile (· = '#')
    let afterWs := afterHash.dropWhile isPyWs
    if l.isPrefixOf afterWs then some (afterWs.drop l.length) else none
  | _ => none

/-- Group-1 of `CONTEXT_SECTION_PATTERN`: `^#+\s*Context from my IDE setup:`. -/
def matchCtxHeader (s : Str) : Option Str :=
  matchHashesWsLit s (lit "Context from my IDE setup:")

/-- The lookahead of `CONTEXT_SECTION_PATTERN`: `^#+\s*My request for Codex:`. -/
def matchReqLookahead (s : Str) : Bool :=
  (matchHashesWsLit s (lit "My request for Codex:")).isSome

/-- Leftmost search for the context header at a line start (`re.search` with
the `^` anchor under MULTILINE); returns the text before the match and the
suffix after the header. -/
def ctxFind (s : Str) (atLineStart : Bool) : Option (Str × Str) :=
  match s with
  | [] => none
  | c :: t =>
    match (if atLineStart then matchCtxHeader s else none) with
    | some suffix => some ([], suffix)
    | none =>
      match ctxFind t (c = '\n') with
      | some (before, suffix) => some (c :: before, suffix)
      | none => none

/-- Lazy `(.*?)` up to the lookahead `(?=^#+\s*My request for Codex:|\Z)`:
split at the first line start where the request header matches, else at the
end of text. -/
def ctxSplitAtRequest (s : Str) (atLineStart : Bool) : Str × Str :=
  match s with
  | [] => ([], [])
  | c :: t =>
    if atLineStart ∧ matchReqLookahead s then ([], s)
    else
      let out := ctxSplitAtRequest t (c = '\n')
      (c :: out.1, out.2)

/-- `_extract_context_block`: replace the matched span by the placeholder plus
a newline, keeping group 2 for later reinsertion. -/
def extractContextBlock (s : Str) : Str × Option Str :=
  match ctxFind s true with
  | none => (s, none)
  | some (before, afterHeader) =>
    let split := ctxSplitAtRequest afterHeader false
    (before ++ CONTEXT_PLACEHOLDER ++ '\n' :: split.2, some split.1)

/-- Python `\w` on the ASCII range. -/
def isWordChar (c : Char) : Bool :=
  ('a' ≤ c ∧ c ≤ 'z') ∨ ('A' ≤ c ∧ c ≤ 'Z') ∨ ('0' ≤ c ∧ c ≤ '9') ∨ c = '_'

/-- Split at the first occurrence of three backticks (the lazy `(.*?)` of
`CODE_BLOCK_PATTERN` stops at the first closing fence). -/
def splitOnTriple (s : Str) : Option (Str × Str) :=
  match s with
  | [] => none
  | c :: t =>
    if (lit "```").isPrefixOf s then some ([], s.drop 3)
    else
      match splitOnTriple t with
      | some (pre, post) => some (c :: pre, post)
      | none => none

/-- Placeholder key: `__CODE_BLOCK_<n>__`. -/
def codeBlockKey (n : Nat) : Str := lit "__CODE_BLOCK_" ++ natDigits n ++ lit "__"

/-- Stored markup for one fenced block. -/
def codeBlockMarkup (lang content : Str) : Str :=
  lit "<pre><code class=\"language-" ++ lang ++ lit "\">" ++ content
    ++ lit "</code></pre>"

/-- Match the body of `` ```(\w+)?\n?(.*?)``` `` after the opening fence:
greedy optional language word, greedy optional newline, lazy content up to
the first closing fence.  Returns `(lang, content, rest)`. -/
def tryCodeBlock (s : Str) : Option (Str × Str × Str) :=
  let langRun := s.takeWhile isWordChar
  let rest0 := s.dropWhile isWordChar
  let rest1 := match rest0 with
    | '\n' :: t => t
    | _ => rest0
  match splitOnTriple rest1 with
  | some (content, rest) =>
    some (if langRun.isEmpty then lit "text" else langRun, content, rest)
  | none => none

/-- `CODE_BLOCK_PATTERN.sub(store_code_block, text)`: left-to-right scan,
non-overlapping matches; `n` is the running placeholder index
(`len(code_blocks)` in the source). -/
def codeScan : Nat → Str → Nat → Str × List (Str × Str)
  | 0, s, _ => (s, [])
  | fuel + 1, s, n =>
    match s with
    | [] => ([], [])
    | c :: t =>
      if (lit "```").isPrefixOf s then
        match tryCodeBlock (s.drop 3) with
        | some (lang, content, rest) =>
          let key := codeBlockKey n
          let out := codeScan fuel rest (n + 1)
          (key ++ out.1, (key, codeBlockMarkup lang content) :: out.2)
        | none =>
          let out := codeScan fuel t n
          (c :: out.1, out.2)
      else
        let out := codeScan fuel t n
        (c :: out.1, out.2)

/-- `_extract_code_blocks`. -/
def extractCodeBlocks (s : Str) : Str × List (Str × Str) :=
  codeScan (s.length + 1) s 0

/-- `NEWLINES_BEFORE_HEADER_PATTERN`: `\n{2,}(?=#)` → `"\n"`; a maximal
newline run of length at least two immediately followed by `#` collapses to
one newline. -/
def subNlBeforeHeader : Nat → Str → Str
  | 0, s => s
  | fuel + 1, s =>
    match s with
    | [] => []
    | '\n' :: '\n' :: t2 =>
      let rest := ('\n' :: '\n' :: t2).dropWhile (· = '\n')
      match rest with
      | '#' :: _ => '\n' :: subNlBeforeHeader fuel rest
      | _ => ('\n' :: '\n' :: t2).takeWhile (· = '\n') ++ subNlBeforeHeader fuel rest
    | c :: t => c :: subNlBeforeHeader fuel t

/-- `NEWLINES_PATTERN`: `\n{3,}` → `"\n\n"`. -/
def subManyNewlines : Nat → Str → Str
  | 0, s => s
  | fuel + 1, s =>
    match s with
    | [] => []
    | c :: t =>
      if (lit "\n\n\n").isPrefixOf s then
        let rest := s.dropWhile (· = '\n')
        '\n' :: '\n' :: subManyNewlines fuel rest
      else c :: subManyNewlines fuel t

/-- Match `#+\s+My request for Codex:?` at the start of `s` (the `\s+` run is
non-empty, the trailing colon is consumed greedily when present). -/
def matchMyRequest (s : Str) : Option Str :=
  match s with
  | '#' :: t =>
    let afterHash := t.dropWhile (· = '#')
    let wsRun := afterHash.takeWhile isPyWs
    if wsRun.isEmpty then none
    else
      let afterWs := afterHash.drop wsRun.length
      if (lit "My request for Codex").isPrefixOf afterWs then
        let rest := afterWs.drop 20
        some (match rest with | ':' :: r => r | _ => rest)
      else none
  | _ => none

/-- `MY_REQUEST_HEADER_REPLACEMENT` from the source. -/
def MY_REQUEST_HEADER_REPLACEMENT : Str :=
  lit "<h2>" ++ ICON_USER_REQUEST ++ lit " My request for Codex:</h2>"

/-- `MY_REQUEST_HEADER_PATTERN.sub`: the match is anchored at a line start. -/
def subMyRequest : Nat → Str → Bool → Str
  | 0, s, _ => s
  | fuel + 1, s, atLineStart =>
    match s with
    | [] => []
    | c :: t =>
      match (if atLineStart then matchMyRequest s else none) with
      | some rest => MY_REQUEST_HEADER_REPLACEMENT ++ subMyRequest fuel rest false
      | none => c :: subMyRequest fuel t (c = '\n')

/-- One line under `^#{k} (.*?)$` → `openT\1closeT` (the lazy group runs to
the end of the line since `.` cannot cross a newline). -/
def headerLine (k : Nat) (openT closeT line : Str) : Str :=
  if (List.replicate k '#' ++ [' ']).isPrefixOf line then
    openT ++ line.drop (k + 1) ++ closeT
  else line

/-- A `HEADER_PATTERNS` substitution: per-line rewrite. -/
def headerSub (k : Nat) (openT closeT s : Str) : Str :=
  joinNl ((splitOnNl s).map (headerLine k openT closeT))

/-- The lazy close of `\*\*(.*?)\*\*`: first `**` reachable without crossing a
newline (DOTALL is off for this pattern). -/
def findStrongClose : Str → Option (Str × Str)
  | [] => none
  | c :: t =>
    if (lit "**").isPrefixOf (c :: t) then some ([], (c :: t).drop 2)
    else if c = '\n' then none
    else
      match findStrongClose t with
      | some (content, rest) => some (c :: content, rest)
      | none => none

/-- `STRONG_PATTERN.sub`: `\*\*(.*?)\*\*` → `<strong>\1</strong>`. -/
def subStrong : Nat → Str → Str
  | 0, s => s
  | fuel + 1, s =>
    match s with
    | [] => []
    | c :: t =>
      if (lit "**").isPrefixOf s then
        match findStrongClose (s.drop 2) with
        | some (content, rest) =>
          lit "<strong>" ++ content ++ lit "</strong>" ++ subStrong fuel rest
        | none => c :: subStrong fuel t
      else c :: subStrong fuel t

/-- `INLINE_CODE_PATTERN.sub`: `` `([^`]+)` `` → inline-code markup (greedy
non-backtick run, then a closing backtick). -/
def subInlineCode : Nat → Str → Str
  | 0, s => s
  | fuel + 1, s =>
    match s with
    | [] => []
    | c :: t =>
      if c = bqC then
        let run := t.takeWhile (· ≠ bqC)
        match run, t.drop run.length with
        | _ :: _, c2 :: rest =>
          if c2 = bqC then
            lit "<code class=\"inline-code\">" ++ run ++ lit "</code>"
              ++ subInlineCode fuel rest
          else c :: subInlineCode fuel t
        | _, _ => c :: subInlineCode fuel t
      else c :: subInlineCode fuel t

/-- `_apply_markdown_formatting`: the fixed substitution sequence. -/
def applyMarkdownFormatting (s : Str) : Str :=
  let s1 := subNlBeforeHeader (s.length + 1) s
  let s2 := subManyNewlines (s1.length + 1) s1
  let s3 := subMyRequest (s2.length + 1) s2 true
  let s4 := headerSub 1 (lit "<h1>") (lit "</h2>") s3
  let s5 := headerSub 2 (lit "<h2>") (lit "</h3>") s4
  let s6 := headerSub 3 (lit "<h3>") (lit "</h4>") s5
  let s7 := headerSub 4 (lit "<h4>") (lit "</h4>") s6
  let s8 := subStrong (s7.length + 1) s7
  subInlineCode (s8.length + 1) s8

/-- `_wrap_context_block`. -/
def wrapContextBlock (c : Str) : Str :=
  lit "<details><summary>Context from my IDE setup</summary>\n<div class=\"context-content\">"
    ++ c ++ lit "</div>\n</details>\n"

/-- `format_content`: escape, protect context and code, apply the markdown
subset, then reinsert by exact placeholder replacement. -/
def formatContent (text : Str) : Str :=
  if text.isEmpty then []
  else
    let e0 := htmlEscape text
    let p1 := extractContextBlock e0
    let p2 := extractCodeBlocks p1.1
    let s3 := applyMarkdownFormatting p2.1
    let s4 := p2.2.foldl (fun acc kv => replaceAll acc kv.1 kv.2) s3
    match p1.2 with
    | none => s4
    | some c => replaceAll s4 CONTEXT_PLACEHOLDER (wrapContextBlock c)

/-! ## Model of `json.loads` / `json.dumps(…, indent=2)`

A standard JSON reader/writer modelling the CPython `json` module as used by
`_format_tool_args`.  Numbers are integers (floating-point literals are
rejected by this model and out of scope); `\u` escapes cover the basic
multilingual plane; duplicate object keys follow dict semantics (first
position, last value). -/

/-- JSON whitespace (` `, tab, newline, carriage return). -/
def isJsonWs (c : Char) : Bool := c = ' ' ∨ c = '\t' ∨ c = '\n' ∨ c = '\r'

/-- Skip JSON whitespace. -/
def skipWsJ (s : Str) : Str := s.dropWhile isJsonWs

/-- Hexadecimal digit value. -/
def hexVal (c : Char) : Option Nat :=
  if '0' ≤ c ∧ c ≤ '9' then some (c.toNat - 48)
  else if 'a' ≤ c ∧ c ≤ 'f' then some (c.toNat - 87)
  else if 'A' ≤ c ∧ c ≤ 'F' then some (c.toNat - 55)
  else none

/-- Parse the inside of a JSON string literal (after the opening quote). -/
def parseJString : Nat → Str → Option (Str × Str)
  | 0, _ => none
  | fuel + 1, s =>
    match s with
    | [] => none
    | '"' :: t => some ([], t)
    | '\\' :: e :: t =>
      match e with
      | '"' => (parseJString fuel t).map fun p => ('"' :: p.1, p.2)
      | '\\' => (parseJString fuel t).map fun p => ('\\' :: p.1, p.2)
      | '/' => (parseJString fuel t).map fun p => ('/' :: p.1, p.2)
      | 'b' => (parseJString fuel t).map fun p => ('\x08' :: p.1, p.2)
      | 'f' => (parseJString fuel t).map fun p => ('\x0c' :: p.1, p.2)
      | 'n' => (parseJString fuel t).map fun p => ('\n' :: p.1, p.2)
      | 'r' => (parseJString fuel t).map fun p => ('\r' :: p.1, p.2)
      | 't' => (parseJString fuel t).map fun p => ('\t' :: p.1, p.2)
      | 'u' =>
        match t with
        | a :: b :: c :: d :: t2 =>
          match hexVal a, hexVal b, hexVal c, hexVal d with
          | some va, some vb, some vc, some vd =>
            let v := ((va * 16 + vb) * 16 + vc) * 16 + vd
            (parseJString fuel t2).map fun p => (Char.ofNat v :: p.1, p.2)
          | _, _, _, _ => none
        | _ => none
      | _ => none
    | c :: t =>
      if c.toNat < 32 then none
      else (parseJString fuel t).map fun p => (c :: p.1, p.2)

/-- Digits-run accumulator for number parsing. -/
def digitsToNat (ds : Str) : Nat :=
  ds.foldl (fun a c => a * 10 + (c.toNat - 48)) 0

/-- Is this an ASCII digit? -/
def isDigitC (c : Char) : Bool := '0' ≤ c ∧ c ≤ '9'

/-- Parse a JSON integer literal; a following `.`/`e`/`E` (a float literal)
is outside this model and fails the parse. -/
def parseNum (s : Str) : Option (Json × Str) :=
  let neg := match s with
    | '-' :: _ => true
    | _ => false
  let s1 := if neg then s.drop 1 else s
  match s1 with
  | [] => none
  | c :: _ =>
    if ¬ isDigitC c then none
    else
      let run := s1.takeWhile isDigitC
      let rest := s1.dropWhile isDigitC
      if c = '0' ∧ run.length ≠ 1 then none
      else
        match rest with
        | '.' :: _ => none
        | 'e' :: _ => none
        | 'E' :: _ => none
        | _ =>
          let v : Int := Int.ofNat (digitsToNat run)
          some (.num (if neg then -v else v), rest)

/-- Update an insertion-ordered field list as a CPython dict insert would. -/
def setField : List (Str × Json) → Str → Json → List (Str × Json)
  | [], k, v => [(k, v)]
  | (k0, v0) :: rest, k, v =>
    if k0 == k then (k0, v) :: rest else (k0, v0) :: setField rest k v

mutual
/-- Parse one JSON value. -/
def parseValue : Nat → Str → Option (Json × Str)
  | 0, _ => none
  | fuel + 1, s =>
    if (lit "null").isPrefixOf s then some (.null, s.drop 4)
    else if (lit "true").isPrefixOf s then some (.bool true, s.drop 4)
    else if (lit "false").isPrefixOf s then some (.bool false, s.drop 5)
    else
      match s with
      | [] => none
      | '"' :: t => (parseJString (t.length + 1) t).map fun p => (.str p.1, p.2)
      | '[' :: t =>
        let t1 := skipWsJ t
        match t1 with
        | ']' :: r => some (.arr [], r)
        | _ => parseArrItems fuel t1 []
      | c :: t =>
        if c = obraceC then
          let t1 := skipWsJ t
          match t1 with
          | [] => none
          | c1 :: r =>
            if c1 = cbraceC then some (.obj [], r)
            else parseObjItems fuel t1 []
        else if c = '-' ∨ isDigitC c then parseNum s
        else none

/-- Parse the remaining items of a non-empty array. -/
def parseArrItems : Nat → Str → List Json → Option (Json × Str)
  | 0, _, _ => none
  | fuel + 1, s, acc =>
    match parseValue fuel s with
    | none => none
    | some (v, r) =>
      match skipWsJ r with
      | ',' :: r2 => parseArrItems fuel (skipWsJ r2) (acc ++ [v])
      | ']' :: r2 => some (.arr (acc ++ [v]), r2)
      | _ => none

/-- Parse the remaining entries of a non-empty object. -/
def parseObjItems : Nat → Str → List (Str × Json) → Option (Json × Str)
  | 0, _, _ => none
  | fuel + 1, s, acc =>
    match s with
    | '"' :: t =>
      match parseJString (t.length + 1) t with
      | none => none
      | some (k, r) =>
        match skipWsJ r with
        | ':' :: r2 =>
          match parseValue fuel (skipWsJ r2) with
          | none => none
          | some (v, r3) =>
            let acc2 := setField acc k v
            match skipWsJ r3 with
            | ',' :: r4 => parseObjItems fuel (skipWsJ r4) acc2
            | c4 :: r4 =>
              if c4 = cbraceC then some (.obj acc2, r4) else none
            | [] => none
        | _ => none
    | _ => none
end

/-- `json.loads`: parse one document, allowing surrounding whitespace only. -/
def pyJsonLoads (s : Str) : Option Json :=
  let t := skipWsJ s
  match parseValue (t.length + 1) t with
  | some (v, r) => if (skipWsJ r).isEmpty then some v else none
  | none => none

/-- Four lowercase hex digits. -/
def hex4 (n : Nat) : Str :=
  let d := fun k => let v := n / k % 16
    if v < 10 then Char.ofNat (48 + v) else Char.ofNat (87 + v)
  [d 4096, d 256, d 16, d 1]

/-- `\uXXXX` escape (surrogate pair above the BMP), as `ensure_ascii` does. -/
def uEscape (n : Nat) : Str :=
  if n < 0x10000 then '\\' :: 'u' :: hex4 n
  else
    let m := n - 0x10000
    '\\' :: 'u' :: hex4 (0xD800 + m / 0x400) ++ '\\' :: 'u' :: hex4 (0xDC00 + m % 0x400)

/-- One character of a `json.dumps` string literal (`ensure_ascii=True`). -/
def jsonEscapeChar (c : Char) : Str :=
  if c = '"' then ['\\', '"']
  else if c = '\\' then ['\\', '\\']
  else if c = '\n' then ['\\', 'n']
  else if c = '\r' then ['\\', 'r']
  else if c = '\t' then ['\\', 't']
  else if c = '\x08' then ['\\', 'b']
  else if c = '\x0c' then ['\\', 'f']
  else if c.toNat < 32 ∨ c.toNat > 126 then uEscape c.toNat
  else [c]

/-- A `json.dumps` string literal. -/
def jsonQuote (s : Str) : Str :=
  '"' :: s.foldr (fun c acc => jsonEscapeChar c ++ acc) ['"']

/-- `n` spaces. -/
def indentStr (n : Nat) : Str := List.replicate n ' '

mutual
/-- `json.dumps(v, indent=2)` at the given current indentation. -/
def dumpsVal : Nat → Nat → Json → Str
  | 0, _, _ => []
  | fuel + 1, ind, j =>
    match j with
    | .null => lit "null"
    | .bool b => if b then lit "true" else lit "false"
    | .num n => intRepr n
    | .str s => jsonQuote s
    | .arr [] => lit "[]"
    | .arr items =>
      '[' :: '\n' :: dumpsArrItems fuel (ind + 2) items
        ++ '\n' :: indentStr ind ++ [']']
    | .obj [] => [obraceC, cbraceC]
    | .obj fs =>
      obraceC :: '\n' :: dumpsObjItems fuel (ind + 2) fs
        ++ '\n' :: indentStr ind ++ [cbraceC]

/-- Array items, one per line, comma-separated. -/
def dumpsArrItems : Nat → Nat → List Json → Str
  | 0, _, _ => []
  | _ + 1, _, [] => []
  | fuel + 1, ind, [x] => indentStr ind ++ dumpsVal fuel ind x
  | fuel + 1, ind, x :: xs =>
    indentStr ind ++ dumpsVal fuel ind x ++ ',' :: '\n' :: dumpsArrItems fuel ind xs

/-- Object entries, one per line, `"key": value`, comma-separated. -/
def dumpsObjItems : Nat → Nat → List (Str × Json) → Str
  | 0, _, _ => []
  | _ + 1, _, [] => []
  | fuel + 1, ind, [(k, v)] =>
    indentStr ind ++ jsonQuote k ++ ':' :: ' ' :: dumpsVal fuel ind v
  | fuel + 1, ind, (k, v) :: fs =>
    indentStr ind ++ jsonQuote k ++ ':' :: ' ' :: dumpsVal fuel ind v
      ++ ',' :: '\n' :: dumpsObjItems fuel ind fs

end

mutual
/-- Node count of a JSON value (fuel bound for the serializer). -/
def Json.size : Json → Nat
  | .null => 1
  | .bool _ => 1
  | .num _ => 1
  | .str _ => 1
  | .arr items => 1 + Json.sizeList items
  | .obj fs => 1 + Json.sizeFields fs

/-- Node count of a JSON array body. -/
def Json.sizeList : List Json → Nat
  | [] => 0
  | x :: xs => 1 + Json.size x + Json.sizeList xs

/-- Node count of a JSON object body. -/
def Json.sizeFields : List (Str × Json) → Nat
  | [] => 0
  | (_, v) :: fs => 1 + Json.size v + Json.sizeFields fs
end

/-- `json.dumps(v, indent=2)` (two-space indentation, `": "` and item-per-line
separators, as CPython emits for a non-`None` indent). -/
def pyJsonDumps2 (v : Json) : Str := dumpsVal (2 * Json.size v + 2) 0 v

/-! ## Deduplicator and routing table (`convertor_html_main.py` /
`convertor_html_rendering.py`)

The four per-session hash sets and the `processing_map` built in
`convert_single_file`.  A config's set object is identified by a `StreamId`
(aliasing in the source — `assistant` and `agent_message` share one set — is
captured by sharing the id). -/

/-- The four dedup namespaces of `convert_single_file`. -/
inductive StreamId where
  | userMessages
  | userEvents
  | assistantMessages
  | eventsOther
deriving DecidableEq, Repr

/-- One `processing_map` entry: display name, CSS class, icon, hash-set id. -/
structure RouteConfig where
  name : Str
  css : Str
  icon : Str
  stream : StreamId

/-- The four per-session hash sets (fresh per conversion). -/
structure DedupState where
  userMessages : List Int
  userEvents : List Int
  assistantMessages : List Int
  eventsOther : List Int
deriving DecidableEq, Repr

/-- Empty dedup state. -/
def dedupInit : DedupState := ⟨[], [], [], []⟩

/-- Read one stream's hash set. -/
def DedupState.read (st : DedupState) : StreamId → List Int
  | .userMessages => st.userMessages
  | .userEvents => st.userEvents
  | .assistantMessages => st.assistantMessages
  | .eventsOther => st.eventsOther

/-- Replace one stream's hash set. -/
def DedupState.write (st : DedupState) : StreamId → List Int → DedupState
  | .userMessages, l => { st with userMessages := l }
  | .userEvents, l => { st with userEvents := l }
  | .assistantMessages, l => { st with assistantMessages := l }
  | .eventsOther, l => { st with eventsOther := l }

/-- The `"default"` entry of `processing_map`. -/
def defaultRoute : RouteConfig :=
  ⟨lit "Developer", lit "role-developer", ICON_GEAR, .eventsOther⟩

/-- `processing_map` as a string-keyed lookup (dict of
`convert_single_file`). -/
def processingMapStr (s : Str) : Option RouteConfig :=
  if s == lit "user_message" then
    some ⟨lit "User", lit "role-user-chat", ICON_USER, .userMessages⟩
  else if s == lit "agent_message" then
    some ⟨lit "Assistant", lit "role-assistant", ICON_ASSISTANT, .assistantMessages⟩
  else if s == lit "user" then
    some ⟨lit "User", lit "role-user-log", ICON_USER, .userEvents⟩
  else if s == lit "assistant" then
    some ⟨lit "Assistant", lit "role-assistant", ICON_ASSISTANT, .assistantMessages⟩
  else if s == lit "developer" then some defaultRoute
  else if s == lit "default" then some defaultRoute
  else none

/-- `processing_map.get(k)` for an arbitrary JSON key: unhashable keys raise,
non-string hashable keys match nothing. -/
def pmapGetJson (k : Json) : Except Err (Option RouteConfig) :=
  match k with
  | .arr _ => .error (lit "TypeError: unhashable type")
  | .obj _ => .error (lit "TypeError: unhashable type")
  | .str s => .ok (processingMapStr s)
  | _ => .ok none

/-- `_should_emit_text(text, seen_set)`: false for empty text or an
already-seen hash; otherwise records the hash and returns true.  The second
component is the updated set. -/
def shouldEmitText (hsh : Str → Int) (text : Str) (seen : List Int) :
    Bool × List Int :=
  if text.isEmpty then (false, seen)
  else
    let h := hsh text
    if seen.contains h then (false, seen) else (true, h :: seen)

/-- `_should_emit_text` as reached with a raw JSON `text` (event payloads):
falsy values are rejected up front, unhashable values raise. -/
def shouldEmitJson (hsh : Str → Int) (text : Json) (seen : List Int) :
    Except Err (Bool × List Int) :=
  if pyTruthy text then
    match pyHashJson hsh text with
    | .error e => .error e
    | .ok h => .ok (if seen.contains h then (false, seen) else (true, h :: seen))
  else .ok (false, seen)

/-! ## Block Renderer (`convertor_html_rendering.py`) -/

/-- `extract_text_content`: the block types whose `text` field is collected. -/
def isTextBlockType (j : Json) : Bool := TEXT_BLOCK_TYPES.any (jsonEqStr j)

/-- The `text` fields selected from a content list (dict blocks whose type is
in `TEXT_BLOCK_TYPES`; `item.get("text", "")`). -/
def extractTextParts (items : List Json) : List Json :=
  items.filterMap fun item =>
    match item with
    | .obj fs =>
      if isTextBlockType (objGet fs (lit "type")) then
        some (objGetD fs (lit "text") (.str []))
      else none
    | _ => none

/-- Python `"".join(parts)`: concatenates strings, raises `TypeError` at the
first non-string element. -/
def joinStrParts : List Json → Except Err Str
  | [] => .ok []
  | .str s :: rest => (joinStrParts rest).map (s ++ ·)
  | _ :: _ => .error (lit "TypeError: sequence item: expected str instance")

/-- `extract_text_content(content_data)`. -/
def extractTextContent : Json → Except Err Str
  | .str s => .ok s
  | .arr items => joinStrParts (extractTextParts items)
  | _ => .ok []

/-- `format_content(text)` as reached with a raw JSON value: Python-falsy
input returns the empty string before any string method is touched; a truthy
non-string raises inside `html.escape`. -/
def formatContentJson (j : Json) : Except Err Str :=
  if pyTruthy j then
    match j with
    | .str s => .ok (formatContent s)
    | _ => .error (lit "AttributeError: escape expects str")
  else .ok []

/-- The chat-bubble markup of `_build_message_html`. -/
def messageFragment (name css icon content : Str) : Str :=
  lit "<div class=\"message " ++ css ++ lit "\"><div class=\"role\">" ++ icon
    ++ ' ' :: pyCapitalize name ++ lit "</div><div class=\"content\">"
    ++ content ++ lit "</div></div>"

/-- `_build_message_html(role, css_class, icon, text)`. -/
def buildMessageHtml (name css icon : Str) (text : Json) : Except Err Str :=
  match formatContentJson text with
  | .error e => .error e
  | .ok content => .ok (messageFragment name css icon content)

/-- `_build_event_message(payload, processing_map)`. -/
def buildEventMessage (hsh : Str → Int) (payload : Json) (st : DedupState) :
    Except Err Str × DedupState :=
  match payload with
  | .obj fs =>
    let msgType := objGet fs (lit "type")
    let text := objGetD fs (lit "message") (.str [])
    match pmapGetJson msgType with
    | .error e => (.error e, st)
    | .ok none => (.ok [], st)
    | .ok (some cfg) =>
      if pyTruthy text then
        match shouldEmitJson hsh text (st.read cfg.stream) with
        | .error e => (.error e, st)
        | .ok (emit, s2) =>
          let st2 := st.write cfg.stream s2
          if emit then
            match buildMessageHtml cfg.name cfg.css cfg.icon text with
            | .error e => (.error e, st2)
            | .ok h => (.ok h, st2)
          else (.ok [], st2)
      else (.ok [], st)
  | _ => (.error (lit "AttributeError: get on non-dict"), st)

/-- `_build_response_message(payload, processing_map)` (the payload is known
to be a dict at this point, `_build_response_item` has already indexed it). -/
def buildResponseMessage (hsh : Str → Int) (fs : List (Str × Json))
    (st : DedupState) : Except Err Str × DedupState :=
  let role := objGetD fs (lit "role") (.str (lit "unknown"))
  match extractTextContent (objGet fs (lit "content")) with
  | .error e => (.error e, st)
  | .ok text =>
    match role with
    | .str r =>
      let cfg := (processingMapStr (pyLower r)).getD defaultRoute
      if text.isEmpty then (.ok [], st)
      else
        let emit := shouldEmitText hsh text (st.read cfg.stream)
        let st2 := st.write cfg.stream emit.2
        if emit.1 then
          match buildMessageHtml cfg.name cfg.css cfg.icon (.str text) with
          | .error e => (.error e, st2)
          | .ok h => (.ok h, st2)
        else (.ok [], st2)
    | _ => (.error (lit "AttributeError: lower on non-str"), st)

/-- `_build_reasoning_html` markup. -/
def reasoningFragment (content : Str) : Str :=
  lit "<div class=\"message type-reasoning\"><span class=\"reasoning-title\">"
    ++ ICON_REASONING ++ lit " Reasoning</span><div class=\"reasoning-content\">"
    ++ content ++ lit "</div></div>"

/-- The `reasoning` branch of `_build_response_item`. -/
def buildReasoning (fs : List (Str × Json)) : Except Err Str :=
  match extractTextContent (objGetD fs (lit "summary") (.arr [])) with
  | .error e => .error e
  | .ok text => .ok (if text.isEmpty then [] else reasoningFragment (formatContent text))

/-- `_format_tool_args(args)`: parse-and-pretty-print when the argument is a
parseable string, the literal string itself on parse failure, and a
2-space-indented dump of an already-structured value. -/
def formatToolArgs : Json → Str
  | .str s =>
    match pyJsonLoads s with
    | some v => pyJsonDumps2 v
    | none => s
  | j => pyJsonDumps2 j

/-- `_build_tool_call_html` markup. -/
def toolCallFragment (tool pretty lang : Str) : Str :=
  lit "<div class=\"message type-tool-call\"><div class=\"tool-header\">"
    ++ ICON_TOOL ++ lit " Tool Call: " ++ htmlEscape tool
    ++ lit "</div><pre><code class=\"language-" ++ lang ++ lit "\">"
    ++ htmlEscape pretty ++ lit "</code></pre></div>"

/-- `_build_tool_call_html(tool, args, lang)`: raises only when the tool name
is not a string (inside `html.escape`). -/
def buildToolCallHtml (tool args : Json) (lang : Str) : Except Err Str :=
  let pretty := formatToolArgs args
  match tool with
  | .str t => .ok (toolCallFragment t pretty lang)
  | _ => .error (lit "AttributeError: escape expects str")

/-- `_build_custom_tool_call_html(tool, inp)`: like the tool-call fragment
but `language-diff` tagged and with the raw input escaped (not parsed). -/
def buildCustomToolCallHtml (tool inp : Json) : Except Err Str :=
  match tool with
  | .str t =>
    match inp with
    | .str i =>
      .ok (lit "<div class=\"message type-tool-call\"><div class=\"tool-header\">"
        ++ ICON_TOOL ++ lit " Tool Call: " ++ htmlEscape t
        ++ lit "</div><pre><code class=\"language-diff\">" ++ htmlEscape i
        ++ lit "</code></pre></div>")
    | _ => .error (lit "AttributeError: escape expects str")
  | _ => .error (lit "AttributeError: escape expects str")

/-- The truncation marker of `_build_tool_output_html`. -/
def truncNote : Str := lit "<div class=\"truncated\">... (truncated)</div>"

/-- `_build_tool_output_html` markup (content already escaped). -/
def toolOutputFragment (content note : Str) : Str :=
  lit "<div class=\"message type-tool-output\"><div class=\"tool-header\">"
    ++ ICON_TOOL ++ lit " Tool Call Output</div><pre><code class=\"language-text\">"
    ++ content ++ lit "</code></pre>" ++ note ++ lit "</div>"

/-- `_build_tool_output_html(output)`: for a string, `if output and
len(output) > 4000` truncates to the first 4000 characters and appends the
marker (a string longer than 4000 is necessarily truthy); every non-string
output raises on `len`/slicing/`html.escape`. -/
def buildToolOutputHtml : Json → Except Err Str
  | .str s =>
    if s.length > TOOL_OUTPUT_TRUNCATE_LIMIT then
      .ok (toolOutputFragment (htmlEscape (s.take TOOL_OUTPUT_TRUNCATE_LIMIT)) truncNote)
    else .ok (toolOutputFragment (htmlEscape s) [])
  | _ => .error (lit "TypeError: tool output is not a string")

/-- `_build_turn_context_message(payload, processing_map)`: builds the
`**Used model:** … **Reasoning Effort:** …` text, then unpacks
`processing_map.get("turn_context")` — which is absent from the map, so a
truthy `model` always raises at the tuple unpacking. -/
def buildTurnContextMessage (payload : Json) : Except Err Str :=
  match payload with
  | .obj fs =>
    let model := objGet fs (lit "model")
    let effort := objGetD fs (lit "effort") (.str [])
    if pyTruthy model then
      let text := lit "**Used model:** " ++ pyStrJson model
        ++ lit " \n**Reasoning Effort:** " ++ pyStrJson effort
      match processingMapStr (lit "turn_context") with
      | none => .error (lit "TypeError: cannot unpack non-iterable NoneType object")
      | some cfg => buildMessageHtml cfg.name cfg.css cfg.icon (.str text)
    else .ok []
  | _ => (.error (lit "AttributeError: get on non-dict"))

/-- `_build_response_item(payload, processing_map)`. -/
def buildResponseItem (hsh : Str → Int) (payload : Json) (st : DedupState) :
    Except Err Str × DedupState :=
  match payload with
  | .obj fs =>
    let t := objGet fs (lit "type")
    if jsonEqStr t (lit "message") then buildResponseMessage hsh fs st
    else if jsonEqStr t (lit "reasoning") then (buildReasoning fs, st)
    else if jsonEqStr t (lit "function_call") then
      (buildToolCallHtml (objGetD fs (lit "name") (.str (lit "unknown")))
        (objGetD fs (lit "arguments") (.str [obraceC, cbraceC])) (lit "json"), st)
    else if jsonEqStr t (lit "custom_tool_call") then
      (buildCustomToolCallHtml (objGetD fs (lit "name") (.str (lit "unknown")))
        (objGetD fs (lit "input") (.str [])), st)
    else if jsonEqStr t (lit "function_call_output") then
      (buildToolOutputHtml (objGetD fs (lit "output") (.str [])), st)
    else (.ok [], st)
  | _ => (.error (lit "AttributeError: get on non-dict"), st)

/-! ## Session Assembler (`convert_single_file` in `convertor_html_main.py`)

A file is a list of per-line parse results: `none` stands for a blank line or
a line on which `_parse_json_line` returned `None` (malformed JSON), `some j`
for a line that parsed to the JSON value `j`.  Writing the output file is
modelled by the `success` constructor carrying the joined document; a
`failure` result means no file is written and the input is untouched. -/

/-- The document header produced by `get_html_header`; its CSS/sidebar
payload is inert page chrome abbreviated here (no claim refers to it). -/
def htmlHeader : Str := lit "<!DOCTYPE html><html><head></head><body>"

/-- The document footer produced by `get_html_footer` (script payload
abbreviated likewise). -/
def htmlFooter : Str := lit "</body></html>"

/-- The inline error fragment injected when building one block raises. -/
def errorFragment (e : Err) : Str :=
  lit "<div style=\"border: 2px solid #ef4444; background: #fef2f2; color: #b91c1c; padding: 12px; margin: 16px 0; border-radius: 8px; font-family: monospace;\"><strong>Conversion Error:</strong> "
    ++ htmlEscape e ++ lit "</div>"

/-- The per-line dispatch of the main loop: `event_msg` and `response_item`
records are rendered, anything else contributes nothing; indexing a
non-dict line raises (and is caught by the loop). -/
def buildLine (hsh : Str → Int) (data : Json) (st : DedupState) :
    Except Err Str × DedupState :=
  match data with
  | .obj fs =>
    let t := objGet fs (lit "type")
    let payload := objGetD fs (lit "payload") (.obj [])
    if jsonEqStr t (lit "event_msg") then buildEventMessage hsh payload st
    else if jsonEqStr t (lit "response_item") then buildResponseItem hsh payload st
    else (.ok [], st)
  | _ => (.error (lit "AttributeError: get on non-dict"), st)

/-- Accumulated loop state: document parts, rendered-block count, dedup sets. -/
structure ConvState where
  parts : List Str
  count : Nat
  dedup : DedupState
deriving DecidableEq

/-- One iteration of the main loop: skipped line, rendered block (appended
and counted), empty block (dropped), or caught exception (error fragment
appended, count untouched). -/
def stepLine (hsh : Str → Int) (st : ConvState) (line : Option Json) : ConvState :=
  match line with
  | none => st
  | some data =>
    match buildLine hsh data st.dedup with
    | (.ok h, d2) =>
      if h.isEmpty then { st with dedup := d2 }
      else { parts := st.parts ++ [h], count := st.count + 1, dedup := d2 }
    | (.error e, d2) => { st with parts := st.parts ++ [errorFragment e], dedup := d2 }

/-- Initial loop state: the header part, zero blocks, fresh dedup sets. -/
def convInit : ConvState := ⟨[htmlHeader], 0, dedupInit⟩

/-- The main loop of `convert_single_file`. -/
def convertLoop (hsh : Str → Int) (lines : List (Option Json)) : ConvState :=
  lines.foldl (stepLine hsh) convInit

/-- Outcome of one conversion: named failure, or the written document. -/
inductive ConvertResult where
  | failure (msg : Str)
  | success (doc : Str)
deriving DecidableEq

/-- `convert_single_file` after path setup: run the loop, append the footer,
report `"Empty/Invalid Log"` when no block was rendered, otherwise write the
joined document. -/
def convertSingleFile (hsh : Str → Int) (lines : List (Option Json)) :
    ConvertResult :=
  let fin := convertLoop hsh lines
  let parts := fin.parts ++ [htmlFooter]
  if fin.count = 0 then .failure (lit "Empty/Invalid Log")
  else .success (concatStr parts)

/-! ## Index Builder (`_sort_entries` in `convertor_html_rendering.py`)

Only the fields that the sort touches are modelled.  `datetime` values are
order-embedded into `Nat` (larger = newer); a `none` timestamp is an entry
whose timestamp had no parseable value, and the source substitutes
`datetime.min` for it, embedded as `0`. -/

/-- One overview-table entry (sort-relevant fields). -/
structure IndexEntry where
  date : Str
  timestamp : Option Nat
deriving DecidableEq, Repr

/-- The sort key `e["timestamp"] or datetime.min` of `_sort_entries`. -/
def entrySortKey (e : IndexEntry) : Nat := e.timestamp.getD 0

/-- Stable insertion for an ascending insertion sort (a stable sort models
Python `sorted`). -/
def insertAsc (e : IndexEntry) : List IndexEntry → List IndexEntry
  | [] => [e]
  | x :: xs =>
    if entrySortKey e ≤ entrySortKey x then e :: x :: xs else x :: insertAsc e xs

/-- `_sort_entries(entries)`: `sorted(entries, key=…, reverse=False)` — a
stable sort on the timestamp key with `reverse=False`. -/
def sortEntries (es : List IndexEntry) : List IndexEntry := es.foldr insertAsc []

/-! ## Record constructors and spec-side definitions used by the theorems -/

/-- An `event_msg` record with the given inner type and message text. -/
def eventMsgRecord (ty msg : Str) : Json :=
  .obj [(lit "type", .str (lit "event_msg")),
        (lit "payload", .obj [(lit "type", .str ty), (lit "message", .str msg)])]

/-- A `response_item` chat-message record with the given role and bare-string
content. -/
def responseMsgRecord (role content : Str) : Json :=
  .obj [(lit "type", .str (lit "response_item")),
        (lit "payload", .obj [(lit "type", .str (lit "message")),
                              (lit "role", .str role),
                              (lit "content", .str content)])]

/-- A `function_call_output` payload with the given output text. -/
def fcoPayload (s : Str) : Json :=
  .obj [(lit "type", .str (lit "function_call_output")), (lit "output", .str s)]

/-- A `function_call` payload with the given name and arguments values. -/
def fnCallPayload (name args : Json) : Json :=
  .obj [(lit "type", .str (lit "function_call")), (lit "name", name),
        (lit "arguments", args)]

/-- A `turn_context` record carrying model/effort metadata. -/
def turnContextRecord (model effort : Str) : Json :=
  .obj [(lit "type", .str (lit "turn_context")),
        (lit "payload", .obj [(lit "model", .str model), (lit "effort", .str effort)])]

/-- The payload of `turnContextRecord`. -/
def turnContextPayload (model effort : Str) : Json :=
  .obj [(lit "model", .str model), (lit "effort", .str effort)]

/-- Spec-side rendering of a tool-output fragment, following §4.4/§8 of the
spec: output of more than 4000 characters is truncated to exactly its first
4000 characters and a visible truncation marker follows the preformatted
block; output of at most 4000 characters renders in full with no marker. -/
def toolOutputFragmentSpec (s : Str) : Str :=
  if 4000 < s.length then
    toolOutputFragment (htmlEscape (s.take 4000)) truncNote
  else
    toolOutputFragment (htmlEscape s) []

/-- Boolean test for the error case of a modelled Python call. -/
def isPyError {α : Type} : Except Err α → Bool
  | .error _ => true
  | .ok _ => false

/-- A line that parses as JSON but raises while its block is built: the
`response_item` payload is a number, so `payload.get("type")` raises. -/
def badPayloadRecord : Json :=
  .obj [(lit "type", .str (lit "response_item")), (lit "payload", .num 5)]

/-- Is this JSON value a list? -/
def Json.isArr : Json → Bool
  | .arr _ => true
  | _ => false

/-- The string payloads of a list of JSON values (spec-side helper: the texts
that a successful join concatenates). -/
def partsTexts (parts : List Json) : List Str :=
  parts.filterMap fun p =>
    match p with
    | .str s => some s
    | _ => none

/-- The payload of a `user_message` event record. -/
def eventMsgPayload (t : Str) : Json :=
  .obj [(lit "type", .str (lit "user_message")), (lit "message", .str t)]

/-- The payload of a `response_item` chat message with role `user`. -/
def userMsgPayload (t : Str) : Json :=
  .obj [(lit "type", .str (lit "message")), (lit "role", .str (lit "user")),
        (lit "content", .str t)]

/-- Read a decimal digit string back to its value (proof-side inverse of
`natDigits`). -/
def digitsVal (ds : Str) : Nat := ds.foldl (fun a c => a * 10 + (c.toNat - 48)) 0

/-- An input that is exactly one fenced code block with the given content. -/
def fencedInput (c : Str) : Str := lit "```\n" ++ c ++ lit "```"

/-! ## Theorems -/

/-- C1: the overview tables are claimed to order entries by timestamp
descending with unparseable-timestamp entries last; `_sort_entries` (whose
own docstring says "by timestamp descending") passes `reverse=False`, so the
rendered order on this three-entry folder is ascending with the
no-timestamp entry first. -/
theorem c1_sort_entries_ascending_eval :
    sortEntries
        [⟨lit "12.01.2024 10:30:00", some 20⟩,
         ⟨lit "10.01.2024 09:00:00", some 10⟩,
         ⟨lit "Unknown", none⟩]
      = [⟨lit "Unknown", none⟩,
         ⟨lit "10.01.2024 09:00:00", some 10⟩,
         ⟨lit "12.01.2024 10:30:00", some 20⟩] := by decide

/-- C2: a `turn_context` record carrying model/effort metadata renders no
block at all — the main dispatch recognises only `event_msg` and
`response_item`, so a file holding just this record reports the empty
failure; and `_build_turn_context_message` itself raises when invoked,
because `processing_map` has no `"turn_context"` entry to unpack. -/
theorem c2_model_info_record_never_rendered :
    convertSingleFile pyHash
        [some (turnContextRecord (lit "gpt-5.1-codex") (lit "medium"))]
      = .failure (lit "Empty/Invalid Log")
    ∧ isPyError
        (buildTurnContextMessage (turnContextPayload (lit "gpt-5.1-codex") (lit "medium")))
      = true := by
  exact ⟨by decide, by decide⟩

/-- C3 counterexample: ordinary input text that happens to spell the context
placeholder is rewritten to the stored context-section markup — the input
holds one context section, yet the output holds the collapsible wrapper
twice, and the literal placeholder-shaped text is gone. -/
theorem c3_placeholder_collision_counterexample :
    countSub
        (formatContent (lit "__CONTEXT_PROTECTED__\n# Context from my IDE setup:\nSTUFF"))
        (lit "<details><summary>") = 2
    ∧ containsSub
        (formatContent (lit "__CONTEXT_PROTECTED__\n# Context from my IDE setup:\nSTUFF"))
        CONTEXT_PLACEHOLDER = false := by
  exact ⟨by decide, by decide⟩

/-- C5 counterexample: `extract_text_content` raises (a `TypeError` from
`"".join`) on a selected block whose `text` field is not a string, so the
claim's "never raises" fails. -/
theorem c5_extract_text_raises_counterexample :
    isPyError
        (extractTextContent
          (.arr [Json.obj [(lit "type", .str (lit "text")), (lit "text", .num 5)]]))
      = true := by decide

/-- C8 counterexample: the context section is extracted before fences are
protected, so a fence whose closing delimiter is swallowed by the context
match leaks `# not a heading` to the heading rule; and fence content is
stored html-escaped, so `a<b` does not survive byte-for-byte. -/
theorem c8_fenced_code_counterexample :
    containsSub
        (formatContent
          (lit "```\n# not a heading\n# Context from my IDE setup:\nx\n```\nrest"))
        (lit "<h1>not a heading</h2>") = true
    ∧ containsSub (formatContent (lit "```\na<b\n```")) (lit "a<b") = false := by
  exact ⟨by decide, by decide⟩

/-- C6: rendering a `function_call_output` equals the spec-side fragment —
output of more than 4000 characters truncated to exactly its first 4000
characters with the visible marker, shorter output in full with no marker —
and the rendering neither reads nor writes any dedup stream (same result for
any two dedup states, state returned unchanged). -/
theorem c6_tool_output_truncation (s : Str) (st st2 : DedupState) :
    buildToolOutputHtml (.str s) = .ok (toolOutputFragmentSpec s)
    ∧ buildResponseItem pyHash (fcoPayload s) st = (.ok (toolOutputFragmentSpec s), st)
    ∧ (buildResponseItem pyHash (fcoPayload s) st).1
        = (buildResponseItem pyHash (fcoPayload s) st2).1 := by
  have h1 : buildToolOutputHtml (.str s) = .ok (toolOutputFragmentSpec s) := by
    unfold buildToolOutputHtml toolOutputFragmentSpec TOOL_OUTPUT_TRUNCATE_LIMIT
    by_cases h : 4000 < s.length
    · simp [h]
    · simp [h]
  have hred : buildResponseItem pyHash (fcoPayload s) st
      = (buildToolOutputHtml (.str s), st) := rfl
  have hred2 : buildResponseItem pyHash (fcoPayload s) st2
      = (buildToolOutputHtml (.str s), st2) := rfl
  refine ⟨h1, ?_, ?_⟩
  · rw [hred, h1]
  · rw [hred, hred2]

/-- C7: a conversion in which zero blocks were rendered returns the named
`"Empty/Invalid Log"` failure (so no output document exists), and a file in
which every line is skipped — in particular one where every line is
malformed JSON, modelled by `none` parse results — renders zero blocks. -/
theorem c7_empty_session_failure :
    (∀ lines : List (Option Json), (convertLoop pyHash lines).count = 0 →
      convertSingleFile pyHash lines = .failure (lit "Empty/Invalid Log"))
    ∧ (∀ lines : List (Option Json), (∀ l ∈ lines, l = none) →
      (convertLoop pyHash lines).count = 0) := by
  constructor
  · intro lines h
    unfold convertSingleFile
    simp [h]
  · intro lines h
    have gen : ∀ (ls : List (Option Json)) (st : ConvState), (∀ l ∈ ls, l = none) →
        ls.foldl (stepLine pyHash) st = st := by
      intro ls
      induction ls with
      | nil => intro st _; rfl
      | cons a ls ih =>
        intro st hall
        have ha : a = none := hall a (List.mem_cons_self a ls)
        subst ha
        have : stepLine pyHash st none = st := rfl
        rw [List.foldl_cons, this]
        exact ih st fun l hl => hall l (List.mem_cons_of_mem _ hl)
    unfold convertLoop
    rw [gen _ _ h]
    rfl

/-- C7 witness: a two-line file of malformed JSON reports the failure. -/
theorem c7_witness :
    convertSingleFile pyHash [none, none] = .failure (lit "Empty/Invalid Log") :=
  c7_empty_session_failure.1 [none, none]
    (c7_empty_session_failure.2 [none, none] (by simp))

/-- C9: `function_call` arguments that parse as JSON are pretty-printed by
the 2-space-indent serializer, unparseable argument strings fall back to the
literal string, and the rendered fragment is always the `language-json`
tagged tool-call block — produced without raising and without touching the
dedup state. -/
theorem c9_tool_call_args :
    (∀ (a : Str) (v : Json), pyJsonLoads a = some v →
      formatToolArgs (.str a) = pyJsonDumps2 v)
    ∧ (∀ a : Str, pyJsonLoads a = none → formatToolArgs (.str a) = a)
    ∧ (∀ (t : Str) (args : Json) (st : DedupState),
      buildResponseItem pyHash (fnCallPayload (.str t) args) st
        = (.ok (toolCallFragment t (formatToolArgs args) (lit "json")), st)) := by
  refine ⟨?_, ?_, ?_⟩
  · intro a v h
    simp [formatToolArgs, h]
  · intro a h
    simp [formatToolArgs, h]
  · intro t args st
    rfl

/-- C9 witness: the literal `{bad json` argument renders as itself (inside
the JSON-tagged block), and a parseable argument pretty-prints with 2-space
indentation. -/
theorem c9_witness :
    formatToolArgs (.str (lit "\x7bbad json")) = lit "\x7bbad json"
    ∧ formatToolArgs (.str (lit "\x7b\"a\": 1\x7d")) = lit "\x7b\n  \"a\": 1\n\x7d" := by
  constructor
  · exact c9_tool_call_args.2.1 (lit "\x7bbad json") rfl
  · exact (c9_tool_call_args.1 (lit "\x7b\"a\": 1\x7d")
      (Json.obj [(lit "a", Json.num 1)]) rfl).trans (by decide)

/-- Folding the main loop over a file of always-raising lines appends one
error fragment per line and never touches the rendered-block count. -/
theorem convertLoop_replicate_bad (n : Nat) : ∀ (st : ConvState),
    (List.replicate n (some badPayloadRecord)).foldl (stepLine pyHash) st
      = { st with parts :=
            st.parts ++ List.replicate n (errorFragment (lit "AttributeError: get on non-dict")) } := by
  induction n with
  | zero => intro st; simp
  | succ n ih =>
    intro st
    rw [List.replicate_succ, List.foldl_cons]
    have hstep : stepLine pyHash st (some badPayloadRecord)
        = { st with parts :=
              st.parts ++ [errorFragment (lit "AttributeError: get on non-dict")] } := rfl
    rw [hstep, ih]
    simp [List.replicate_succ]

/-- C10: when building a block raises, the loop appends the inline error
fragment without incrementing the rendered-block count; consequently a file
whose every parsed line raises converts to the `"Empty/Invalid Log"`
failure (no output written) even though one fragment per line was produced
(header plus `n` fragments). -/
theorem c10_error_fragment_not_counted :
    (∀ (st : ConvState) (data : Json) (e : Err) (d2 : DedupState),
      buildLine pyHash data st.dedup = (.error e, d2) →
      stepLine pyHash st (some data) = ⟨st.parts ++ [errorFragment e], st.count, d2⟩)
    ∧ (∀ n : Nat,
      convertSingleFile pyHash (List.replicate n (some badPayloadRecord))
          = .failure (lit "Empty/Invalid Log")
      ∧ (convertLoop pyHash (List.replicate n (some badPayloadRecord))).parts.length
          = n + 1) := by
  constructor
  · intro st data e d2 h
    simp [stepLine, h]
  · intro n
    have hloop := convertLoop_replicate_bad n convInit
    constructor
    · unfold convertSingleFile convertLoop
      unfold convertLoop at hloop
      rw [hloop]
      simp [convInit]
    · unfold convertLoop
      rw [hloop]
      simp [convInit]

/-- C10 witness: one raising line appends exactly the error fragment with
count still zero, and a two-line file of raising lines reports the empty
failure. -/
theorem c10_witness :
    stepLine pyHash convInit (some badPayloadRecord)
      = ⟨[htmlHeader, errorFragment (lit "AttributeError: get on non-dict")], 0, dedupInit⟩
    ∧ convertSingleFile pyHash (List.replicate 2 (some badPayloadRecord))
      = .failure (lit "Empty/Invalid Log") := by
  constructor
  · exact (c10_error_fragment_not_counted.1 convInit badPayloadRecord _ _ rfl).trans (by decide)
  · exact (c10_error_fragment_not_counted.2 2).1

/-- A join over all-string parts succeeds with their in-order, separator-free
concatenation. -/
theorem joinStrParts_ok : ∀ parts : List Json,
    (∀ p ∈ parts, p.isStr = true) →
    joinStrParts parts = .ok (concatStr (partsTexts parts)) := by
  intro parts
  induction parts with
  | nil => intro; rfl
  | cons p ps ih =>
    intro h
    have hp : p.isStr = true := h p (List.mem_cons_self p ps)
    cases p with
    | str s =>
      have hrest := ih fun q hq => h q (List.mem_cons_of_mem _ hq)
      show (joinStrParts ps).map (s ++ ·) = .ok (concatStr (partsTexts (.str s :: ps)))
      rw [hrest]
      rfl
    | null => simp [Json.isStr] at hp
    | bool b => simp [Json.isStr] at hp
    | num n => simp [Json.isStr] at hp
    | arr l => simp [Json.isStr] at hp
    | obj f => simp [Json.isStr] at hp

/-- C5 amended: `extract_text_content` returns a bare string verbatim,
returns empty text for any shape that is neither a string nor a list, and on
a list concatenates in order (no separator) the `text` fields of the
selected blocks — provided each selected `text` field is a string (a
non-string field raises, per the counterexample). -/
theorem c5_extract_text_amended :
    (∀ s : Str, extractTextContent (.str s) = .ok s)
    ∧ (∀ j : Json, j.isStr = false → j.isArr = false → extractTextContent j = .ok [])
    ∧ (∀ items : List Json, (∀ p ∈ extractTextParts items, p.isStr = true) →
      extractTextContent (.arr items)
        = .ok (concatStr (partsTexts (extractTextParts items)))) := by
  refine ⟨fun s => rfl, ?_, ?_⟩
  · intro j h1 h2
    cases j <;> simp_all [Json.isStr, Json.isArr, extractTextContent]
  · intro items h
    unfold extractTextContent
    exact joinStrParts_ok _ h

/-- C5 witness: the spec's example — a text block and an image block —
extracts exactly `hello`. -/
theorem c5_witness :
    extractTextContent
        (.arr [Json.obj [(lit "type", .str (lit "text")), (lit "text", .str (lit "hello"))],
               Json.obj [(lit "type", .str (lit "image")), (lit "url", .str (lit "x"))]])
      = .ok (lit "hello") := by
  have h := c5_extract_text_amended.2.2
      [Json.obj [(lit "type", .str (lit "text")), (lit "text", .str (lit "hello"))],
       Json.obj [(lit "type", .str (lit "image")), (lit "url", .str (lit "x"))]]
      (by
        intro p hp
        have hl : p ∈ [Json.str (lit "hello")] := hp
        have he : p = Json.str (lit "hello") := List.mem_singleton.mp hl
        rw [he]
        rfl)
  exact h.trans rfl

/-- An already-seen hash (or empty text) is suppressed and leaves the set
unchanged. -/
theorem shouldEmitText_seen (hsh : Str → Int) (t : Str) (s : List Int)
    (hcon : s.contains (hsh t) = true) : shouldEmitText hsh t s = (false, s) := by
  cases t with
  | nil => rfl
  | cons c ts => simp_all [shouldEmitText]

/-- Fresh non-empty text is emitted and its hash recorded. -/
theorem shouldEmitText_new (hsh : Str → Int) (t : Str) (s : List Int)
    (ht : t ≠ []) (hcon : s.contains (hsh t) = false) :
    shouldEmitText hsh t s = (true, hsh t :: s) := by
  cases t with
  | nil => exact absurd rfl ht
  | cons c ts => simp_all [shouldEmitText]

/-- C4: the `is_new` contract — false for empty text, false (set unchanged)
for an already-seen hash, otherwise record-and-true, for an arbitrary hash
function; the same text submitted to two different fresh streams is emitted
in both while a second submission to the first stream is suppressed; and
end-to-end, a non-empty text renders both as a `user_message` event and as a
role-`user` response item (two streams), while the spec's `"Hi there"` file
with a repeated `user_message` renders exactly two blocks. -/
theorem c4_dedup_stream_scoped :
    (∀ (hsh : Str → Int) (s : List Int), shouldEmitText hsh [] s = (false, s))
    ∧ (∀ (hsh : Str → Int) (t : Str) (s : List Int), s.contains (hsh t) = true →
        shouldEmitText hsh t s = (false, s))
    ∧ (∀ (hsh : Str → Int) (t : Str) (s : List Int), t ≠ [] →
        s.contains (hsh t) = false → shouldEmitText hsh t s = (true, hsh t :: s))
    ∧ (∀ (hsh : Str → Int) (t : Str) (A B : List Int), t ≠ [] →
        A.contains (hsh t) = false → B.contains (hsh t) = false →
        (shouldEmitText hsh t A).1 = true ∧ (shouldEmitText hsh t B).1 = true
        ∧ (shouldEmitText hsh t (shouldEmitText hsh t A).2).1 = false)
    ∧ (∀ t : Str, t ≠ [] →
        (buildEventMessage pyHash (eventMsgPayload t) dedupInit).1
          = .ok (messageFragment (lit "User") (lit "role-user-chat") ICON_USER
              (formatContent t))
        ∧ (buildResponseItem pyHash (userMsgPayload t)
              (buildEventMessage pyHash (eventMsgPayload t) dedupInit).2).1
          = .ok (messageFragment (lit "User") (lit "role-user-log") ICON_USER
              (formatContent t)))
    ∧ (convertLoop pyHash
        [some (eventMsgRecord (lit "user_message") (lit "Hi there")),
         some (responseMsgRecord (lit "user") (lit "Hi there")),
         some (eventMsgRecord (lit "user_message") (lit "Hi there"))]).count = 2 := by
  refine ⟨fun hsh s => rfl, shouldEmitText_seen, shouldEmitText_new, ?_, ?_, by decide⟩
  · intro hsh t A B ht hA hB
    rw [shouldEmitText_new hsh t A ht hA, shouldEmitText_new hsh t B ht hB]
    refine ⟨rfl, rfl, ?_⟩
    rw [shouldEmitText_seen hsh t (hsh t :: A) (by simp)]
  · intro t ht
    cases t with
    | nil => exact absurd rfl ht
    | cons c ts => exact ⟨rfl, rfl⟩

/-- C4 witness: fresh `"Hi"` is emitted and recorded, resubmitting it to the
same stream is suppressed, and the event record renders its chat bubble. -/
theorem c4_witness :
    shouldEmitText pyHash (lit "Hi") [] = (true, [pyHash (lit "Hi")])
    ∧ (shouldEmitText pyHash (lit "Hi") (shouldEmitText pyHash (lit "Hi") []).2).1 = false
    ∧ (buildEventMessage pyHash (eventMsgPayload (lit "Hi")) dedupInit).1
        = .ok (messageFragment (lit "User") (lit "role-user-chat") ICON_USER
            (formatContent (lit "Hi"))) := by
  refine ⟨?_, ?_, ?_⟩
  · exact c4_dedup_stream_scoped.2.2.1 pyHash (lit "Hi") [] (by decide) (by decide)
  · exact (c4_dedup_stream_scoped.2.2.2.1 pyHash (lit "Hi") [] [] (by decide)
      (by decide) (by decide)).2.2
  · exact (c4_dedup_stream_scoped.2.2.2.2.1 (lit "Hi") (by decide)).1

/-- Digit characters round-trip through `toNat`. -/
theorem digitCharVal (m : Nat) (hm : m < 10) :
    (Char.ofNat (48 + m)).toNat = 48 + m := by
  interval_cases m <;> decide

/-- `natDigitsRev` is read back by `digitsVal`. -/
theorem natDigitsRev_val : ∀ (fuel n : Nat), n < fuel →
    digitsVal (natDigitsRev fuel n).reverse = n := by
  intro fuel
  induction fuel with
  | zero => intro n hn; omega
  | succ fuel ih =>
    intro n hn
    by_cases h10 : n < 10
    · simp only [natDigitsRev, if_pos h10]
      show digitsVal [Char.ofNat (48 + n)] = n
      show 0 * 10 + ((Char.ofNat (48 + n)).toNat - 48) = n
      rw [digitCharVal n h10]
      omega
    · simp only [natDigitsRev, if_neg h10]
      rw [List.reverse_cons]
      show List.foldl (fun a c => a * 10 + (c.toNat - 48)) 0
        ((natDigitsRev fuel (n / 10)).reverse ++ [Char.ofNat (48 + n % 10)]) = n
      rw [List.foldl_append]
      have hlt : n / 10 < fuel := by
        have := Nat.div_lt_self (by omega : 0 < n) (by omega : 1 < 10)
        omega
      have hv := ih (n / 10) hlt
      show digitsVal (natDigitsRev fuel (n / 10)).reverse * 10
          + ((Char.ofNat (48 + n % 10)).toNat - 48) = n
      rw [hv, digitCharVal (n % 10) (Nat.mod_lt n (by omega))]
      omega

/-- Decimal representations are injective. -/
theorem natDigits_inj {a b : Nat} (h : natDigits a = natDigits b) : a = b := by
  have ha := natDigitsRev_val (a + 1) a (by omega)
  have hb := natDigitsRev_val (b + 1) b (by omega)
  unfold natDigits at h
  rw [← ha, ← hb, h]

/-- Placeholder keys with different indices differ. -/
theorem codeBlockKey_inj {a b : Nat} (h : codeBlockKey a = codeBlockKey b) :
    a = b := by
  unfold codeBlockKey at h
  exact natDigits_inj (List.append_cancel_left (List.append_cancel_right h))

/-- No code-block key equals the context placeholder. -/
theorem codeBlockKey_ne_context (n : Nat) :
    codeBlockKey n ≠ CONTEXT_PLACEHOLDER := by
  intro h
  have h5 : (codeBlockKey n).take 5 = CONTEXT_PLACEHOLDER.take 5 := by rw [h]
  have hL : (codeBlockKey n).take 5 = lit "__COD" := rfl
  have hR : CONTEXT_PLACEHOLDER.take 5 = lit "__CON" := rfl
  rw [hL, hR] at h5
  exact absurd h5 (by decide)

/-- Unfolding equation of `codeScan` on a non-empty string. -/
theorem codeScan_succ_cons (fuel : Nat) (c : Char) (t : Str) (n : Nat) :
    codeScan (fuel + 1) (c :: t) n
      = if (lit "```").isPrefixOf (c :: t) then
          match tryCodeBlock ((c :: t).drop 3) with
          | some (lang, content, rest) =>
            (codeBlockKey n ++ (codeScan fuel rest (n + 1)).1,
             (codeBlockKey n, codeBlockMarkup lang content)
               :: (codeScan fuel rest (n + 1)).2)
          | none => (c :: (codeScan fuel t n).1, (codeScan fuel t n).2)
        else (c :: (codeScan fuel t n).1, (codeScan fuel t n).2) := rfl

/-- The placeholder keys produced by the code-block scan starting at index
`n` are exactly `__CODE_BLOCK_(n+i)__` for consecutive `i`. -/
theorem codeScan_keys : ∀ (fuel : Nat) (s : Str) (n : Nat),
    ((codeScan fuel s n).2).map Prod.fst
      = (List.range ((codeScan fuel s n).2).length).map
          (fun i => codeBlockKey (n + i)) := by
  intro fuel
  induction fuel with
  | zero => intro s n; rfl
  | succ fuel ih =>
    intro s n
    cases s with
    | nil => rfl
    | cons c t =>
      rw [codeScan_succ_cons]
      by_cases hpre : (lit "```").isPrefixOf (c :: t) = true
      · rw [if_pos hpre]
        cases htr : tryCodeBlock ((c :: t).drop 3) with
        | none =>
          simp only [htr]
          exact ih t n
        | some res =>
          obtain ⟨lang, content, rest⟩ := res
          simp only [htr]
          show codeBlockKey n :: List.map Prod.fst (codeScan fuel rest (n + 1)).2
              = List.map (fun i => codeBlockKey (n + i))
                  (List.range ((codeScan fuel rest (n + 1)).2.length + 1))
          rw [ih rest (n + 1), List.range_succ_eq_map, List.map_cons, List.map_map]
          refine congrArg₂ List.cons (by rw [Nat.add_zero]) ?_
          refine List.map_congr_left fun i _ => ?_
          simp only [Function.comp_apply]
          exact congrArg codeBlockKey (by omega)
      · rw [if_neg hpre]
        exact ih t n

/-- C3 amended: distinct protected regions always receive distinct
placeholders — the code-block keys are monotonically indexed and distinct
from the context placeholder — but (per the counterexample) ordinary input
text of a placeholder's shape is rewritten to stored markup at reinsertion,
since reinsertion is plain substring replacement. -/
theorem c3_placeholders_distinct (s : Str) :
    (((extractCodeBlocks s).2).map Prod.fst).Nodup
    ∧ ∀ kv ∈ (extractCodeBlocks s).2, kv.1 ≠ CONTEXT_PLACEHOLDER := by
  constructor
  · show ((codeScan (s.length + 1) s 0).2.map Prod.fst).Nodup
    rw [codeScan_keys]
    refine List.Nodup.map ?_ (List.nodup_range _)
    intro a b h
    have h2 := codeBlockKey_inj h
    omega
  · intro kv hkv
    have hmem : kv.1 ∈ ((codeScan (s.length + 1) s 0).2).map Prod.fst :=
      List.mem_map_of_mem _ hkv
    rw [codeScan_keys] at hmem
    obtain ⟨i, _, hi⟩ := List.mem_map.mp hmem
    rw [← hi]
    exact codeBlockKey_ne_context _

/-- C3 witness: on a one-fence input the key list is duplicate-free and the
generated key differs from the context placeholder. -/
theorem c3_placeholders_distinct_witness :
    (lit "__CODE_BLOCK_0__") ≠ CONTEXT_PLACEHOLDER :=
  (c3_placeholders_distinct (lit "```a```")).2
    (lit "__CODE_BLOCK_0__", codeBlockMarkup (lit "a") []) (by decide)

/-- `html.escape` distributes over concatenation. -/
theorem htmlEscape_append (a b : Str) :
    htmlEscape (a ++ b) = htmlEscape a ++ htmlEscape b := by
  induction a with
  | nil => rfl
  | cons x t ih =>
    show escChar x ++ htmlEscape (t ++ b) = (escChar x ++ htmlEscape t) ++ htmlEscape b
    rw [ih, List.append_assoc]

/-- A context search that finds nothing returns the text untouched. -/
theorem extractContextBlock_of_none (s : Str)
    (h : (extractContextBlock s).2 = none) : extractContextBlock s = (s, none) := by
  unfold extractContextBlock at h ⊢
  cases hf : ctxFind s true with
  | none => rfl
  | some p =>
    rw [hf] at h
    simp at h

/-- Scanning an empty string yields nothing for any fuel. -/
theorem codeScan_nil (fuel n : Nat) : codeScan fuel [] n = ([], []) := by
  cases fuel <;> rfl

/-- Replacing a pattern inside itself yields the replacement. -/
theorem replaceAll_self (pat repl : Str) (h : pat ≠ []) :
    replaceAll pat pat repl = repl := by
  have hpre : ∀ l : Str, l.isPrefixOf l = true := by
    intro l
    induction l with
    | nil => rfl
    | cons x t ih => simp [List.isPrefixOf, ih]
  cases pat with
  | nil => exact absurd rfl h
  | cons p ps =>
    show replaceAllCore (p :: ps).length (p :: ps) (p :: ps) repl = repl
    rw [show (p :: ps).length = ps.length + 1 from rfl]
    show (if (p :: ps).isPrefixOf (p :: ps) = true then
            repl ++ replaceAllCore ps.length ((p :: ps).drop (p :: ps).length) (p :: ps) repl
          else p :: replaceAllCore ps.length ps (p :: ps) repl) = repl
    rw [if_pos (hpre (p :: ps)), List.drop_length]
    rw [show replaceAllCore ps.length ([] : Str) (p :: ps) repl = [] from by
      cases ps <;> rfl]
    exact List.append_nil repl

/-- Scanning a fenced block `` ```\nX `` whose first closing fence splits `X`
as `(content, rest)` stores one `language-text` block holding `content`. -/
theorem codeScan_fenced (fuel : Nat) (X content rest2 : Str)
    (h : splitOnTriple X = some (content, rest2)) (n : Nat) :
    codeScan (fuel + 1) (bqC :: bqC :: bqC :: '\n' :: X) n
      = (codeBlockKey n ++ (codeScan fuel rest2 (n + 1)).1,
         (codeBlockKey n, codeBlockMarkup (lit "text") content)
           :: (codeScan fuel rest2 (n + 1)).2) := by
  rw [codeScan_succ_cons]
  rw [if_pos
    (show (lit "```").isPrefixOf (bqC :: bqC :: bqC :: '\n' :: X) = true from rfl)]
  have htry : tryCodeBlock ((bqC :: bqC :: bqC :: '\n' :: X).drop 3)
      = some (lit "text", content, rest2) := by
    show (match splitOnTriple X with
          | some (content, rest) => some ((lit "text" : Str), content, rest)
          | none => none) = some (lit "text", content, rest2)
    rw [h]
  rw [htry]

/-- Extracting the code blocks of a single-fence input (whose content holds
no further fence) yields exactly the one placeholder and its stored markup. -/
theorem extractCodeBlocks_fenced (c : Str)
    (hfence : splitOnTriple (htmlEscape c ++ lit "```") = some (htmlEscape c, [])) :
    extractCodeBlocks ((lit "```\n" ++ htmlEscape c) ++ lit "```")
      = (codeBlockKey 0 ++ [],
         [(codeBlockKey 0, codeBlockMarkup (lit "text") (htmlEscape c))]) := by
  unfold extractCodeBlocks
  show codeScan ((((lit "```\n" ++ htmlEscape c) ++ lit "```")).length + 1)
      (bqC :: bqC :: bqC :: '\n' :: (htmlEscape c ++ lit "```")) 0 = _
  rw [codeScan_fenced _ _ _ _ hfence 0, codeScan_nil]

/-- `format_content` on non-empty input, written out without the
intermediate bindings. -/
theorem formatContent_eq (text : Str) (hne : text.isEmpty = false) :
    formatContent text
      = (match (extractContextBlock (htmlEscape text)).2 with
         | none =>
           (extractCodeBlocks (extractContextBlock (htmlEscape text)).1).2.foldl
             (fun acc kv => replaceAll acc kv.1 kv.2)
             (applyMarkdownFormatting
               (extractCodeBlocks (extractContextBlock (htmlEscape text)).1).1)
         | some ctx =>
           replaceAll
             ((extractCodeBlocks (extractContextBlock (htmlEscape text)).1).2.foldl
               (fun acc kv => replaceAll acc kv.1 kv.2)
               (applyMarkdownFormatting
                 (extractCodeBlocks (extractContextBlock (htmlEscape text)).1).1))
             CONTEXT_PLACEHOLDER (wrapContextBlock ctx)) := by
  unfold formatContent
  rw [hne]
  rfl

/-- C8 amended: on an input that is exactly one fenced code block — whose
(escaped) content does not itself close the fence and in which the IDE
context header does not fire — `format_content` returns exactly the
preformatted block holding the html-escaped content (hence byte-for-byte
for content without HTML metacharacters), with no heading/emphasis rule
applied to it. -/
theorem c8_fenced_content_protected (c : Str)
    (hctx : (extractContextBlock ((lit "```\n" ++ htmlEscape c) ++ lit "```")).2 = none)
    (hfence : splitOnTriple (htmlEscape c ++ lit "```") = some (htmlEscape c, [])) :
    formatContent (fencedInput c)
      = lit "<pre><code class=\"language-text\">" ++ htmlEscape c
          ++ lit "</code></pre>" := by
  have hesc : htmlEscape (fencedInput c)
      = (lit "```\n" ++ htmlEscape c) ++ lit "```" := by
    unfold fencedInput
    rw [htmlEscape_append, htmlEscape_append]
    rfl
  rw [formatContent_eq (fencedInput c) rfl, hesc, extractContextBlock_of_none _ hctx]
  show (extractCodeBlocks ((lit "```\n" ++ htmlEscape c) ++ lit "```")).2.foldl
      (fun acc kv => replaceAll acc kv.1 kv.2)
      (applyMarkdownFormatting
        (extractCodeBlocks ((lit "```\n" ++ htmlEscape c) ++ lit "```")).1) = _
  rw [extractCodeBlocks_fenced c hfence, List.append_nil,
    show applyMarkdownFormatting (codeBlockKey 0) = codeBlockKey 0 from by decide]
  show replaceAll (codeBlockKey 0) (codeBlockKey 0)
      (codeBlockMarkup (lit "text") (htmlEscape c)) = _
  rw [replaceAll_self _ _ (by decide)]
  rfl

/-- C8 witness: the fenced `# not a heading` line survives exactly as code
content and is not rewritten to a heading. -/
theorem c8_fenced_witness :
    formatContent (fencedInput (lit "# not a heading\n"))
      = lit "<pre><code class=\"language-text\"># not a heading\n</code></pre>" := by
  have h := c8_fenced_content_protected (lit "# not a heading\n") (by decide) (by decide)
  exact h.trans (by decide)
